import Mathlib

/-!
# INA228 register layer

A shallow embedding of `lib/INA228/INA228.hpp`.  The header consists of scoped
enumerations only: the value enumerations of the public interface
(`ADC_Ranges`, `Modes`, `Conversion_Times`, `Averaging_Counts`), the register
addresses (`Registers_`) and one mask enumeration per register.

Every enumeration is embedded as the list of its enumerators, in source order,
each enumerator being the pair of its identifier and its numeric value.  Mask
enumerations additionally expose every enumerator value under its source name.
Values are natural numbers; the width of the underlying type is recorded in
`underlyingBits`.
-/

namespace INA228

/-- One enumerator of a scoped enumeration: its identifier and its value. -/
structure Enumerator where
  name : String
  value : Nat
  deriving DecidableEq, Repr

/-! ## Public value enumerations -/

namespace ADC_Ranges

/-- Underlying type `bool`. -/
def underlyingBits : Nat := 1

def enumerators : List Enumerator :=
  [ ⟨"pm_163mV84", 0⟩,
    ⟨"pm_40mV96", 1⟩ ]

end ADC_Ranges

namespace Modes

/-- Underlying type `uint8_t`. -/
def underlyingBits : Nat := 8

/-- The enumerator list of `enum class Modes`, exactly as written in the
header: fifteen entries, the identifier `trig_temp_bus_single` written twice
(values `0x5` and `0x6`), and no entry with value `0x8`. -/
def enumerators : List Enumerator :=
  [ ⟨"shutdown", 0x0⟩,
    ⟨"trig_bus_single", 0x1⟩,
    ⟨"trig_shunt_single", 0x2⟩,
    ⟨"trig_shunt_bus_single", 0x3⟩,
    ⟨"trig_temp_single", 0x4⟩,
    ⟨"trig_temp_bus_single", 0x5⟩,
    ⟨"trig_temp_bus_single", 0x6⟩,
    ⟨"trig_bus_shunt_temp_single", 0x7⟩,
    ⟨"cont_bus", 0x9⟩,
    ⟨"cont_shunt", 0xA⟩,
    ⟨"cont_shunt_bus", 0xB⟩,
    ⟨"cont_temp", 0xC⟩,
    ⟨"cont_bus_temp", 0xD⟩,
    ⟨"cont_temp_shunt", 0xE⟩,
    ⟨"cont_bus_shunt_temp", 0xF⟩ ]

end Modes

namespace Conversion_Times

/-- Underlying type `uint8_t`. -/
def underlyingBits : Nat := 8

def enumerators : List Enumerator :=
  [ ⟨"t_50us", 0x0⟩,
    ⟨"t_84us", 0x1⟩,
    ⟨"t_150us", 0x2⟩,
    ⟨"t_280us", 0x3⟩,
    ⟨"t_540us", 0x4⟩,
    ⟨"t_1052us", 0x5⟩,
    ⟨"t_2074us", 0x6⟩,
    ⟨"t_4120us", 0x7⟩ ]

end Conversion_Times

namespace Averaging_Counts

/-- Underlying type `uint8_t`. -/
def underlyingBits : Nat := 8

def enumerators : List Enumerator :=
  [ ⟨"c_1", 0x0⟩,
    ⟨"c_4", 0x1⟩,
    ⟨"c_16", 0x2⟩,
    ⟨"c_64", 0x3⟩,
    ⟨"c_128", 0x4⟩,
    ⟨"c_256", 0x5⟩,
    ⟨"c_512", 0x6⟩,
    ⟨"c_1024", 0x7⟩ ]

end Averaging_Counts

/-! ## Register addresses -/

namespace Registers_

/-- Underlying type `uint8_t`. -/
def underlyingBits : Nat := 8

def config_ : Nat := 0x0
def adc_config_ : Nat := 0x1
def shunt_calibration_ : Nat := 0x2
def shunt_temperature_coefficient_ : Nat := 0x3
def shunt_voltage_measurement_ : Nat := 0x4
def bus_voltage_measurement_ : Nat := 0x5
def die_temperature_ : Nat := 0x6
def current_ : Nat := 0x7
def power_ : Nat := 0x8
def energy_ : Nat := 0x9
def charge_ : Nat := 0xA
def diagnostic_flag_ : Nat := 0xB
def shunt_overvoltage_threshold_ : Nat := 0xC
def shunt_undervoltage_threshold_ : Nat := 0xD
def bus_overvoltage_threshold_ : Nat := 0xE
def bus_undervoltage_threshold_ : Nat := 0xF
def temperature_overlimit_threshold_ : Nat := 0x10
def power_overlimit_threshold_ : Nat := 0x11
def manufacturer_id_ : Nat := 0x3E
def device_id_ : Nat := 0x3F

def enumerators : List Enumerator :=
  [ ⟨"config_", config_⟩,
    ⟨"adc_config_", adc_config_⟩,
    ⟨"shunt_calibration_", shunt_calibration_⟩,
    ⟨"shunt_temperature_coefficient_", shunt_temperature_coefficient_⟩,
    ⟨"shunt_voltage_measurement_", shunt_voltage_measurement_⟩,
    ⟨"bus_voltage_measurement_", bus_voltage_measurement_⟩,
    ⟨"die_temperature_", die_temperature_⟩,
    ⟨"current_", current_⟩,
    ⟨"power_", power_⟩,
    ⟨"energy_", energy_⟩,
    ⟨"charge_", charge_⟩,
    ⟨"diagnostic_flag_", diagnostic_flag_⟩,
    ⟨"shunt_overvoltage_threshold_", shunt_overvoltage_threshold_⟩,
    ⟨"shunt_undervoltage_threshold_", shunt_undervoltage_threshold_⟩,
    ⟨"bus_overvoltage_threshold_", bus_overvoltage_threshold_⟩,
    ⟨"bus_undervoltage_threshold_", bus_undervoltage_threshold_⟩,
    ⟨"temperature_overlimit_threshold_", temperature_overlimit_threshold_⟩,
    ⟨"power_overlimit_threshold_", power_overlimit_threshold_⟩,
    ⟨"manufacturer_id_", manufacturer_id_⟩,
    ⟨"device_id_", device_id_⟩ ]

end Registers_

/-! ## Mask enumerations -/

namespace Config_Masks_

/-- Underlying type `uint16_t`. -/
def underlyingBits : Nat := 16

def reset_ : Nat := 0b1000000000000000
def reset_accumulation_ : Nat := 0b100000000000000
def adc_conversion_delay_ : Nat := 0b11111111000000
def enable_temperature_compensation_ : Nat := 0b100000
def adc_range_ : Nat := 0b10000

def enumerators : List Enumerator :=
  [ ⟨"reset_", reset_⟩,
    ⟨"reset_accumulation_", reset_accumulation_⟩,
    ⟨"adc_conversion_delay_", adc_conversion_delay_⟩,
    ⟨"enable_temperature_compensation_", enable_temperature_compensation_⟩,
    ⟨"adc_range_", adc_range_⟩ ]

end Config_Masks_

namespace ADC_Config_Masks_

/-- Underlying type `uint16_t`. -/
def underlyingBits : Nat := 16

def mode_ : Nat := 0b1111000000000000
def bus_voltage_conversion_time_ : Nat := 0b111000000000
def shunt_voltage_conversion_time_ : Nat := 0b111000000
def temperature_conversion_time_ : Nat := 0b111000
def adc_averaging_count_ : Nat := 0b111

def enumerators : List Enumerator :=
  [ ⟨"mode_", mode_⟩,
    ⟨"bus_voltage_conversion_time_", bus_voltage_conversion_time_⟩,
    ⟨"shunt_voltage_conversion_time_", shunt_voltage_conversion_time_⟩,
    ⟨"temperature_conversion_time_", temperature_conversion_time_⟩,
    ⟨"adc_averaging_count_", adc_averaging_count_⟩ ]

end ADC_Config_Masks_

namespace Shunt_Calibration_Masks_
/-- Underlying type `uint16_t`. -/
def underlyingBits : Nat := 16
def shunt_calibration_ : Nat := 0b111111111111111
def enumerators : List Enumerator := [ ⟨"shunt_calibration_", shunt_calibration_⟩ ]
end Shunt_Calibration_Masks_

namespace Shunt_Temperature_Coefficient_Masks_
/-- Underlying type `uint16_t`. -/
def underlyingBits : Nat := 16
def shunt_temperature_coefficient_ : Nat := 0b11111111111111
def enumerators : List Enumerator :=
  [ ⟨"shunt_temperature_coefficient_", shunt_temperature_coefficient_⟩ ]
end Shunt_Temperature_Coefficient_Masks_

namespace Shunt_Voltage_Measurement_Masks_
/-- Underlying type `uint32_t`. -/
def underlyingBits : Nat := 32
def shunt_voltage_measurement_ : Nat := 0b111111111111111111110000
def enumerators : List Enumerator :=
  [ ⟨"shunt_voltage_measurement_", shunt_voltage_measurement_⟩ ]
end Shunt_Voltage_Measurement_Masks_

namespace Bus_Voltage_Measurement_Masks_
/-- Underlying type `uint32_t`. -/
def underlyingBits : Nat := 32
def bus_voltage_measurement_ : Nat := 0b111111111111111111110000
def enumerators : List Enumerator :=
  [ ⟨"bus_voltage_measurement_", bus_voltage_measurement_⟩ ]
end Bus_Voltage_Measurement_Masks_

namespace Temperature_Measurement_Masks_
/-- Underlying type `uint16_t`. -/
def underlyingBits : Nat := 16
def internal_die_temperature_measurement_ : Nat := 0b1111111111111111
def enumerators : List Enumerator :=
  [ ⟨"internal_die_temperature_measurement_", internal_die_temperature_measurement_⟩ ]
end Temperature_Measurement_Masks_

namespace Current_Result_Masks_
/-- Underlying type `uint32_t`. -/
def underlyingBits : Nat := 32
def current_result_ : Nat := 0b111111111111111111110000
def enumerators : List Enumerator := [ ⟨"current_result_", current_result_⟩ ]
end Current_Result_Masks_

namespace Power_Result_Masks_
/-- Underlying type `uint32_t`. -/
def underlyingBits : Nat := 32
def power_result_ : Nat := 0b111111111111111111111111
def enumerators : List Enumerator := [ ⟨"power_result_", power_result_⟩ ]
end Power_Result_Masks_

namespace Energy_Result_Masks_
/-- Underlying type `uint64_t`. -/
def underlyingBits : Nat := 64
def energy_result_ : Nat := 0b1111111111111111111111111111111111111111
def enumerators : List Enumerator := [ ⟨"energy_result_", energy_result_⟩ ]
end Energy_Result_Masks_

namespace Charge_Result_Masks_
/-- Underlying type `uint64_t`. -/
def underlyingBits : Nat := 64
def charge_result_ : Nat := 0b1111111111111111111111111111111111111111
def enumerators : List Enumerator := [ ⟨"charge_result_", charge_result_⟩ ]
end Charge_Result_Masks_

namespace Diagnostic_Flags_Masks_

/-- Underlying type `uint16_t`. -/
def underlyingBits : Nat := 16

def alert_latch : Nat := 0b1000000000000000
def conversion_ready_on_alert_pin_ : Nat := 0b100000000000000
def alert_asserted_on_completed_average_ : Nat := 0b10000000000000
def alert_pin_polarity_ : Nat := 0b1000000000000
def energy_health_ : Nat := 0b100000000000
def charge_health_ : Nat := 0b10000000000
def math_overflow_ : Nat := 0b1000000000
def temperature_overlimit_ : Nat := 0b10000000
def shunt_overlimit_ : Nat := 0b1000000
def shunt_underlimit_ : Nat := 0b100000
def bus_overlimit_ : Nat := 0b10000
def bus_underlimit_ : Nat := 0b1000
def power_limit_ : Nat := 0b100
def conversion_complete_ : Nat := 0b10
def checksum_error_ : Nat := 0b1

def enumerators : List Enumerator :=
  [ ⟨"alert_latch", alert_latch⟩,
    ⟨"conversion_ready_on_alert_pin_", conversion_ready_on_alert_pin_⟩,
    ⟨"alert_asserted_on_completed_average_", alert_asserted_on_completed_average_⟩,
    ⟨"alert_pin_polarity_", alert_pin_polarity_⟩,
    ⟨"energy_health_", energy_health_⟩,
    ⟨"charge_health_", charge_health_⟩,
    ⟨"math_overflow_", math_overflow_⟩,
    ⟨"temperature_overlimit_", temperature_overlimit_⟩,
    ⟨"shunt_overlimit_", shunt_overlimit_⟩,
    ⟨"shunt_underlimit_", shunt_underlimit_⟩,
    ⟨"bus_overlimit_", bus_overlimit_⟩,
    ⟨"bus_underlimit_", bus_underlimit_⟩,
    ⟨"power_limit_", power_limit_⟩,
    ⟨"conversion_complete_", conversion_complete_⟩,
    ⟨"checksum_error_", checksum_error_⟩ ]

end Diagnostic_Flags_Masks_

namespace Shunt_Overvoltage_Threshold_Masks_
/-- Underlying type `uint16_t`. -/
def underlyingBits : Nat := 16
def shunt_overvoltage_threshold_ : Nat := 0b1111111111111111
def enumerators : List Enumerator :=
  [ ⟨"shunt_overvoltage_threshold_", shunt_overvoltage_threshold_⟩ ]
end Shunt_Overvoltage_Threshold_Masks_

namespace Shunt_Undervoltage_Threshold_Masks_
/-- Underlying type `uint16_t`. -/
def underlyingBits : Nat := 16
def shunt_undervoltage_threshold_ : Nat := 0b1111111111111111
def enumerators : List Enumerator :=
  [ ⟨"shunt_undervoltage_threshold_", shunt_undervoltage_threshold_⟩ ]
end Shunt_Undervoltage_Threshold_Masks_

namespace Bus_Overvoltage_Threshold_Masks_
/-- Underlying type `uint16_t`. -/
def underlyingBits : Nat := 16
def bus_overvoltage_threshold_ : Nat := 0b1111111111111111
def enumerators : List Enumerator :=
  [ ⟨"bus_overvoltage_threshold_", bus_overvoltage_threshold_⟩ ]
end Bus_Overvoltage_Threshold_Masks_

namespace Bus_Undervoltage_Threshold_Masks_
/-- Underlying type `uint16_t`. -/
def underlyingBits : Nat := 16
def bus_undervoltage_threshold_ : Nat := 0b1111111111111111
def enumerators : List Enumerator :=
  [ ⟨"bus_undervoltage_threshold_", bus_undervoltage_threshold_⟩ ]
end Bus_Undervoltage_Threshold_Masks_

namespace Temperature_Overlimit_Threshold_Masks_
/-- Underlying type `uint16_t`. -/
def underlyingBits : Nat := 16
def temperature_overlimit_threshold_ : Nat := 0b1111111111111111
def enumerators : List Enumerator :=
  [ ⟨"temperature_overlimit_threshold_", temperature_overlimit_threshold_⟩ ]
end Temperature_Overlimit_Threshold_Masks_

namespace Power_Over_Limit_Threshold_Masks_
/-- Underlying type `uint16_t`. -/
def underlyingBits : Nat := 16
def power_over_limit_threshold_ : Nat := 0b1111111111111111
def enumerators : List Enumerator :=
  [ ⟨"power_over_limit_threshold_", power_over_limit_threshold_⟩ ]
end Power_Over_Limit_Threshold_Masks_

namespace Manufacturer_ID_Masks_
/-- Underlying type `uint16_t`. -/
def underlyingBits : Nat := 16
def manufacturer_id_ : Nat := 0b1111111111111111
def enumerators : List Enumerator := [ ⟨"manufacturer_id_", manufacturer_id_⟩ ]
end Manufacturer_ID_Masks_

namespace Device_ID_Masks_
/-- Underlying type `uint16_t`. -/
def underlyingBits : Nat := 16
def device_id_ : Nat := 0b1111111111111111
def enumerators : List Enumerator := [ ⟨"device_id_", device_id_⟩ ]
end Device_ID_Masks_

/-! ## Bit-field vocabulary

The header fixes the field layout through its masks only; the notions below
read a layout off a mask. -/

/-- The positions of the set bits of `mask`, in increasing order.  Every mask
of the header has an underlying type of at most 64 bits. -/
def setBits (mask : Nat) : List Nat :=
  (List.range 64).filter (fun i => mask.testBit i)

/-- The position of the lowest set bit of `mask` (`0` for the empty mask). -/
def lowestSetBit (mask : Nat) : Nat :=
  (setBits mask).headD 0

/-- The number of set bits of `mask`. -/
def setBitCount (mask : Nat) : Nat :=
  (setBits mask).length

/-- The bitwise complement of `x` inside a word of `bits` bits. -/
def complement (bits x : Nat) : Nat :=
  (2 ^ bits - 1) ^^^ x

/-- An enumerator of `Registers_` is a threshold register when its identifier
ends in `threshold_`. -/
def isThresholdRegister (e : Enumerator) : Bool :=
  "threshold_".data.isSuffixOf e.name.data

/-- The threshold registers of `Registers_`, in source order. -/
def thresholdRegisters : List Enumerator :=
  Registers_.enumerators.filter isThresholdRegister

/-- The enumerators of the mask enumerations named `*_Threshold_Masks_`, in
source order. -/
def thresholdMasks : List Enumerator :=
  Shunt_Overvoltage_Threshold_Masks_.enumerators ++
  Shunt_Undervoltage_Threshold_Masks_.enumerators ++
  Bus_Overvoltage_Threshold_Masks_.enumerators ++
  Bus_Undervoltage_Threshold_Masks_.enumerators ++
  Temperature_Overlimit_Threshold_Masks_.enumerators ++
  Power_Over_Limit_Threshold_Masks_.enumerators

/-- The three mask enumerations that split one register into several fields. -/
def multiFieldMaskSets : List (List Enumerator) :=
  [ Config_Masks_.enumerators,
    ADC_Config_Masks_.enumerators,
    Diagnostic_Flags_Masks_.enumerators ]

/-! ## Field codec over the masks

The header declares no function.  The operations below are the codec the
specification describes, written over the masks of the header. -/

/-- Modelled from the spec: the header has no encoder; a field is encoded by
placing its code at the lowest set bit of its mask. -/
def place (mask code : Nat) : Nat :=
  code <<< lowestSetBit mask

/-- Modelled from the spec: the header has no decoder; a field is decoded as
`(word AND mask)` shifted right by the position of the lowest set bit of the
mask. -/
def decodeField (mask word : Nat) : Nat :=
  (word &&& mask) >>> lowestSetBit mask

/-- Modelled from the spec: the header has no `Configuration` type; this is
the configuration of the specification, each enumerated field holding one
enumerator of the matching enumeration of the header. -/
structure Configuration where
  mode : Enumerator
  bus_voltage_conversion_time : Enumerator
  shunt_voltage_conversion_time : Enumerator
  temperature_conversion_time : Enumerator
  adc_averaging_count : Enumerator
  adc_range : Enumerator
  reset : Bool
  reset_accumulation : Bool
  enable_temperature_compensation : Bool
  adc_conversion_delay : Nat
  deriving DecidableEq, Repr

/-- Every enumerated field holds an enumerator of its enumeration and the
conversion delay fits in 8 bits. -/
def Configuration.WellFormed (c : Configuration) : Prop :=
  c.mode ∈ Modes.enumerators ∧
  c.bus_voltage_conversion_time ∈ Conversion_Times.enumerators ∧
  c.shunt_voltage_conversion_time ∈ Conversion_Times.enumerators ∧
  c.temperature_conversion_time ∈ Conversion_Times.enumerators ∧
  c.adc_averaging_count ∈ Averaging_Counts.enumerators ∧
  c.adc_range ∈ ADC_Ranges.enumerators ∧
  c.adc_conversion_delay < 2 ^ 8

instance (c : Configuration) : Decidable c.WellFormed := by
  unfold Configuration.WellFormed
  infer_instance

/-- Modelled from the spec: the header has no encoder; the `config` word is
the OR of the codes of its fields, each placed by its `Config_Masks_` mask. -/
def encodeConfig (c : Configuration) : Nat :=
  place Config_Masks_.reset_ c.reset.toNat |||
  place Config_Masks_.reset_accumulation_ c.reset_accumulation.toNat |||
  place Config_Masks_.adc_conversion_delay_ c.adc_conversion_delay |||
  place Config_Masks_.enable_temperature_compensation_ c.enable_temperature_compensation.toNat |||
  place Config_Masks_.adc_range_ c.adc_range.value

/-- Modelled from the spec: the header has no encoder; the `adc_config` word
is the OR of the codes of its fields, each placed by its `ADC_Config_Masks_`
mask. -/
def encodeADCConfig (c : Configuration) : Nat :=
  place ADC_Config_Masks_.mode_ c.mode.value |||
  place ADC_Config_Masks_.bus_voltage_conversion_time_ c.bus_voltage_conversion_time.value |||
  place ADC_Config_Masks_.shunt_voltage_conversion_time_ c.shunt_voltage_conversion_time.value |||
  place ADC_Config_Masks_.temperature_conversion_time_ c.temperature_conversion_time.value |||
  place ADC_Config_Masks_.adc_averaging_count_ c.adc_averaging_count.value

/-- Modelled from the spec: the header has no packing function; a mode code
`m` is packed into the 16-bit `adc_config` word `w` as
`(w AND NOT mode_) OR ((m << 12) AND mode_)`. -/
def packMode (w m : Nat) : Nat :=
  (w &&& complement 16 ADC_Config_Masks_.mode_) ||| ((m <<< 12) &&& ADC_Config_Masks_.mode_)

/-- Modelled from the spec: the header has no flag decoder; a flag of
`Diagnostic_Flags_Masks_` is asserted in `raw` iff `raw AND mask` is
non-zero. -/
def flagAsserted (raw : Nat) (flag : Enumerator) : Bool :=
  raw &&& flag.value != 0

/-- Modelled from the spec: `decodeFlags`, the identifiers of the flags of
`Diagnostic_Flags_Masks_` asserted in `raw`, by one bit test per mask. -/
def decodeFlags (raw : Nat) : List String :=
  (Diagnostic_Flags_Masks_.enumerators.filter (flagAsserted raw)).map (fun e => e.name)

/-- Modelled from the spec: `encodeAlertConfig`, the OR of the masks of the
enabled alert options. -/
def encodeAlertConfig (latchEnable alertPolarity assertOnAverage convReadyOnAlert : Bool) : Nat :=
  (if latchEnable then Diagnostic_Flags_Masks_.alert_latch else 0) |||
  (if alertPolarity then Diagnostic_Flags_Masks_.alert_pin_polarity_ else 0) |||
  (if assertOnAverage then Diagnostic_Flags_Masks_.alert_asserted_on_completed_average_ else 0) |||
  (if convReadyOnAlert then Diagnostic_Flags_Masks_.conversion_ready_on_alert_pin_ else 0)

/-- The status masks of `Diagnostic_Flags_Masks_`: the bits the device
manages. -/
def statusMasks : List Nat :=
  [ Diagnostic_Flags_Masks_.energy_health_,
    Diagnostic_Flags_Masks_.charge_health_,
    Diagnostic_Flags_Masks_.math_overflow_,
    Diagnostic_Flags_Masks_.temperature_overlimit_,
    Diagnostic_Flags_Masks_.shunt_overlimit_,
    Diagnostic_Flags_Masks_.shunt_underlimit_,
    Diagnostic_Flags_Masks_.bus_overlimit_,
    Diagnostic_Flags_Masks_.bus_underlimit_,
    Diagnostic_Flags_Masks_.power_limit_,
    Diagnostic_Flags_Masks_.conversion_complete_,
    Diagnostic_Flags_Masks_.checksum_error_ ]

/-- The mask `mask` is one contiguous run of `width` set bits starting at bit
`offset`: it fits in 64 bits and its set bits are exactly
`offset, offset + 1, ..., offset + width - 1`. -/
def IsContiguousRun (mask offset width : Nat) : Prop :=
  mask < 2 ^ 64 ∧ setBits mask = List.range' offset width

instance (mask offset width : Nat) : Decidable (IsContiguousRun mask offset width) := by
  unfold IsContiguousRun
  infer_instance

/-- The mask enumerations of the registers that hold a single field. -/
def singleFieldMaskSets : List (List Enumerator) :=
  [ Shunt_Calibration_Masks_.enumerators,
    Shunt_Temperature_Coefficient_Masks_.enumerators,
    Shunt_Voltage_Measurement_Masks_.enumerators,
    Bus_Voltage_Measurement_Masks_.enumerators,
    Temperature_Measurement_Masks_.enumerators,
    Current_Result_Masks_.enumerators,
    Power_Result_Masks_.enumerators,
    Energy_Result_Masks_.enumerators,
    Charge_Result_Masks_.enumerators,
    Shunt_Overvoltage_Threshold_Masks_.enumerators,
    Shunt_Undervoltage_Threshold_Masks_.enumerators,
    Bus_Overvoltage_Threshold_Masks_.enumerators,
    Bus_Undervoltage_Threshold_Masks_.enumerators,
    Temperature_Overlimit_Threshold_Masks_.enumerators,
    Power_Over_Limit_Threshold_Masks_.enumerators,
    Manufacturer_ID_Masks_.enumerators,
    Device_ID_Masks_.enumerators ]

/-- A sample configuration: continuous conversion of all three inputs, the
narrow ADC range, temperature compensation on, both reset pulses requested. -/
def sampleConfiguration : Configuration :=
  { mode := ⟨"cont_bus_shunt_temp", 0xF⟩
    bus_voltage_conversion_time := ⟨"t_1052us", 0x5⟩
    shunt_voltage_conversion_time := ⟨"t_4120us", 0x7⟩
    temperature_conversion_time := ⟨"t_84us", 0x1⟩
    adc_averaging_count := ⟨"c_64", 0x3⟩
    adc_range := ⟨"pm_40mV96", 1⟩
    reset := true
    reset_accumulation := true
    enable_temperature_compensation := true
    adc_conversion_delay := 0xA5 }

/-! ## Signed fields and mask unions -/

/-- Modelled from the spec: the header has no unpack function; a signed field
of width `width` is extracted with its mask and, when the top bit of the field
is set, `2 ^ width` is subtracted from the unsigned field value. -/
def unpackSigned (mask width raw : Nat) : Int :=
  if (decodeField mask raw).testBit (width - 1) then
    (decodeField mask raw : Int) - 2 ^ width
  else
    (decodeField mask raw : Int)

/-- The signed measurement fields of the register map: the mask of the field
and the width the register table gives it (shunt voltage, current, die
temperature, charge). -/
def signedFields : List (Nat × Nat) :=
  [ (Shunt_Voltage_Measurement_Masks_.shunt_voltage_measurement_, 20),
    (Current_Result_Masks_.current_result_, 20),
    (Temperature_Measurement_Masks_.internal_die_temperature_measurement_, 16),
    (Charge_Result_Masks_.charge_result_, 40) ]

/-- The bitwise OR of all the values of a mask enumeration. -/
def maskUnion (S : List Enumerator) : Nat :=
  S.foldl (fun acc e => acc ||| e.value) 0

/-- The enumerators of a mask enumeration whose mask has bit `i` set. -/
def fieldsAtBit (S : List Enumerator) (i : Nat) : List Enumerator :=
  S.filter (fun e => e.value.testBit i)

/-- The entries of an enumeration whose identifier is `name`. -/
def enumeratorsNamed (S : List Enumerator) (name : String) : List Enumerator :=
  S.filter (fun e => e.name = name)

/-- The entries of an enumeration whose value is `code`. -/
def enumeratorsWithValue (S : List Enumerator) (code : Nat) : List Enumerator :=
  S.filter (fun e => e.value = code)

/-! ## Auxiliary lemmas -/

theorem extract_run (x k w : Nat) :
    (x &&& ((2 ^ w - 1) <<< k)) >>> k = x / 2 ^ k % 2 ^ w := by
  rw [← Nat.shiftRight_eq_div_pow]
  apply Nat.eq_of_testBit_eq
  intro i
  simp only [Nat.testBit_shiftRight, Nat.testBit_and, Nat.testBit_shiftLeft,
    Nat.testBit_two_pow_sub_one, Nat.testBit_mod_two_pow]
  by_cases h : i < w <;> simp [h]

theorem decodeField_eq (mask k w x : Nat) (hk : lowestSetBit mask = k)
    (hm : mask = (2 ^ w - 1) <<< k) : decodeField mask x = x / 2 ^ k % 2 ^ w := by
  unfold decodeField
  rw [hk, hm, extract_run]

theorem place_or (mask k hi lo : Nat) (hk : lowestSetBit mask = k) (hlo : lo < 2 ^ k) :
    place mask hi ||| lo = 2 ^ k * hi + lo := by
  unfold place
  rw [hk, Nat.shiftLeft_eq, Nat.mul_comm, Nat.mul_add_lt_is_or hlo]

theorem place_zero_shift (mask v : Nat) (hk : lowestSetBit mask = 0) : place mask v = v := by
  unfold place
  rw [hk, Nat.shiftLeft_zero]

theorem value_lt_of_mem (l : List Enumerator) (n : Nat) (h : ∀ e ∈ l, e.value < n)
    (e : Enumerator) (he : e ∈ l) : e.value < n := h e he

/-- The encoded `adc_config` word as a sum of weighted field codes. -/
theorem encodeADCConfig_eq (c : Configuration) (h : c.WellFormed) :
    encodeADCConfig c = 4096 * c.mode.value + 512 * c.bus_voltage_conversion_time.value
      + 64 * c.shunt_voltage_conversion_time.value + 8 * c.temperature_conversion_time.value
      + c.adc_averaging_count.value := by
  obtain ⟨-, hb, hs, ht, ha, -, -⟩ := h
  have hb' := value_lt_of_mem Conversion_Times.enumerators 8 (by decide) _ hb
  have hs' := value_lt_of_mem Conversion_Times.enumerators 8 (by decide) _ hs
  have ht' := value_lt_of_mem Conversion_Times.enumerators 8 (by decide) _ ht
  have ha' := value_lt_of_mem Averaging_Counts.enumerators 8 (by decide) _ ha
  unfold encodeADCConfig
  simp only [Nat.lor_assoc]
  rw [place_zero_shift ADC_Config_Masks_.adc_averaging_count_ _ (by decide),
    place_or ADC_Config_Masks_.temperature_conversion_time_ 3 _ _ (by decide) (by omega),
    place_or ADC_Config_Masks_.shunt_voltage_conversion_time_ 6 _ _ (by decide) (by omega),
    place_or ADC_Config_Masks_.bus_voltage_conversion_time_ 9 _ _ (by decide) (by omega),
    place_or ADC_Config_Masks_.mode_ 12 _ _ (by decide) (by omega)]
  omega

/-- The encoded `config` word as a sum of weighted field codes. -/
theorem encodeConfig_eq (c : Configuration) (h : c.WellFormed) :
    encodeConfig c = 32768 * c.reset.toNat + 16384 * c.reset_accumulation.toNat
      + 64 * c.adc_conversion_delay + 32 * c.enable_temperature_compensation.toNat
      + 16 * c.adc_range.value := by
  obtain ⟨-, -, -, -, -, hr, hd⟩ := h
  have hr' := value_lt_of_mem ADC_Ranges.enumerators 2 (by decide) _ hr
  have ht' : c.enable_temperature_compensation.toNat < 2 := Bool.toNat_lt _
  have ha' : c.reset_accumulation.toNat < 2 := Bool.toNat_lt _
  unfold encodeConfig
  simp only [Nat.lor_assoc]
  have e0 : place Config_Masks_.adc_range_ c.adc_range.value
      = 2 ^ 4 * c.adc_range.value + 0 := by
    rw [← place_or Config_Masks_.adc_range_ 4 _ 0 (by decide) (by omega), Nat.or_zero]
  rw [e0,
    place_or Config_Masks_.enable_temperature_compensation_ 5 _ _ (by decide) (by omega),
    place_or Config_Masks_.adc_conversion_delay_ 6 _ _ (by decide) (by omega),
    place_or Config_Masks_.reset_accumulation_ 14 _ _ (by decide) (by omega),
    place_or Config_Masks_.reset_ 15 _ _ (by decide) (by omega)]
  omega

/-! ## Configuration round trip -/

/-- C1: for every well-formed configuration (a `Modes` enumerator, three
`Conversion_Times` enumerators, an `Averaging_Counts` enumerator, an
`ADC_Ranges` enumerator, a temperature-compensation bit, an 8-bit conversion
delay, and any two reset bits), decoding each field other than `reset_` and
`reset_accumulation_` from the encoded words returns the code that was
encoded. -/
theorem configuration_round_trip (c : Configuration) (h : c.WellFormed) :
    decodeField ADC_Config_Masks_.mode_ (encodeADCConfig c) = c.mode.value ∧
    decodeField ADC_Config_Masks_.bus_voltage_conversion_time_ (encodeADCConfig c)
      = c.bus_voltage_conversion_time.value ∧
    decodeField ADC_Config_Masks_.shunt_voltage_conversion_time_ (encodeADCConfig c)
      = c.shunt_voltage_conversion_time.value ∧
    decodeField ADC_Config_Masks_.temperature_conversion_time_ (encodeADCConfig c)
      = c.temperature_conversion_time.value ∧
    decodeField ADC_Config_Masks_.adc_averaging_count_ (encodeADCConfig c)
      = c.adc_averaging_count.value ∧
    decodeField Config_Masks_.adc_range_ (encodeConfig c) = c.adc_range.value ∧
    decodeField Config_Masks_.enable_temperature_compensation_ (encodeConfig c)
      = c.enable_temperature_compensation.toNat ∧
    decodeField Config_Masks_.adc_conversion_delay_ (encodeConfig c)
      = c.adc_conversion_delay := by
  have hA := encodeADCConfig_eq c h
  have hC := encodeConfig_eq c h
  obtain ⟨hm, hb, hs, ht, ha, hr, hd⟩ := h
  have hm' := value_lt_of_mem Modes.enumerators 16 (by decide) _ hm
  have hb' := value_lt_of_mem Conversion_Times.enumerators 8 (by decide) _ hb
  have hs' := value_lt_of_mem Conversion_Times.enumerators 8 (by decide) _ hs
  have ht' := value_lt_of_mem Conversion_Times.enumerators 8 (by decide) _ ht
  have ha' := value_lt_of_mem Averaging_Counts.enumerators 8 (by decide) _ ha
  have hr' := value_lt_of_mem ADC_Ranges.enumerators 2 (by decide) _ hr
  have hx : c.reset.toNat < 2 := Bool.toNat_lt _
  have hy : c.reset_accumulation.toNat < 2 := Bool.toNat_lt _
  have hz : c.enable_temperature_compensation.toNat < 2 := Bool.toNat_lt _
  rw [decodeField_eq ADC_Config_Masks_.mode_ 12 4 _ (by decide) (by decide),
    decodeField_eq ADC_Config_Masks_.bus_voltage_conversion_time_ 9 3 _ (by decide) (by decide),
    decodeField_eq ADC_Config_Masks_.shunt_voltage_conversion_time_ 6 3 _ (by decide) (by decide),
    decodeField_eq ADC_Config_Masks_.temperature_conversion_time_ 3 3 _ (by decide) (by decide),
    decodeField_eq ADC_Config_Masks_.adc_averaging_count_ 0 3 _ (by decide) (by decide),
    decodeField_eq Config_Masks_.adc_range_ 4 1 _ (by decide) (by decide),
    decodeField_eq Config_Masks_.enable_temperature_compensation_ 5 1 _ (by decide) (by decide),
    decodeField_eq Config_Masks_.adc_conversion_delay_ 6 8 _ (by decide) (by decide),
    hA, hC]
  simp only [Nat.reducePow]
  refine ⟨?_, ?_, ?_, ?_, ?_, ?_, ?_, ?_⟩ <;> omega

/-- Witness of C1 at `sampleConfiguration`. -/
theorem configuration_round_trip_witness :
    sampleConfiguration.WellFormed ∧
    (decodeField ADC_Config_Masks_.mode_ (encodeADCConfig sampleConfiguration) = 0xF ∧
    decodeField ADC_Config_Masks_.bus_voltage_conversion_time_
      (encodeADCConfig sampleConfiguration) = 0x5 ∧
    decodeField ADC_Config_Masks_.shunt_voltage_conversion_time_
      (encodeADCConfig sampleConfiguration) = 0x7 ∧
    decodeField ADC_Config_Masks_.temperature_conversion_time_
      (encodeADCConfig sampleConfiguration) = 0x1 ∧
    decodeField ADC_Config_Masks_.adc_averaging_count_
      (encodeADCConfig sampleConfiguration) = 0x3 ∧
    decodeField Config_Masks_.adc_range_ (encodeConfig sampleConfiguration) = 1 ∧
    decodeField Config_Masks_.enable_temperature_compensation_
      (encodeConfig sampleConfiguration) = 1 ∧
    decodeField Config_Masks_.adc_conversion_delay_
      (encodeConfig sampleConfiguration) = 0xA5) :=
  ⟨by decide, configuration_round_trip sampleConfiguration (by decide)⟩

/-! ## The codes of `Modes` -/

/-- C2, as stated, fails: the claim that every code `0x0 ≤ c ≤ 0xF` is the value
of some `Modes` enumerator is false, since no enumerator has value `0x8`. -/
theorem modes_full_code_space_fails :
    ¬ (∀ c : Nat, c ≤ 0xF → ∃ m ∈ Modes.enumerators, m.value = c) :=
  fun h => absurd (h 0x8 (by decide)) (by decide)

/-- C2, amended: a code `0x0 ≤ c ≤ 0xF` is the value of some `Modes` enumerator
exactly when `c` is not `0x8`; the enumeration lists fifteen enumerators, whose
values are `0x0..0x7` and `0x9..0xF`, each once. -/
theorem modes_assigned_codes (c : Nat) (hc : c ≤ 0xF) :
    ((∃ m ∈ Modes.enumerators, m.value = c) ↔ c ≠ 0x8) ∧
    Modes.enumerators.length = 15 ∧
    Modes.enumerators.map (fun e => e.value)
      = [0x0, 0x1, 0x2, 0x3, 0x4, 0x5, 0x6, 0x7, 0x9, 0xA, 0xB, 0xC, 0xD, 0xE, 0xF] := by
  refine ⟨?_, by decide, by decide⟩
  interval_cases c <;> decide

/-- Witness of the amended C2 at the unassigned code `0x8`. -/
theorem modes_assigned_codes_witness :
    (8 : Nat) ≤ 0xF ∧ ¬ (∃ m ∈ Modes.enumerators, m.value = 8) :=
  ⟨by decide, fun h => ((modes_assigned_codes 8 (by decide)).1.mp h) rfl⟩

/-! ## Field layout -/

/-- C3: in each of `Config_Masks_`, `ADC_Config_Masks_` and
`Diagnostic_Flags_Masks_`, any two distinct enumerators have masks whose
bitwise AND is `0`. -/
theorem masks_pairwise_disjoint (S : List Enumerator) (hS : S ∈ multiFieldMaskSets)
    (a b : Enumerator) (ha : a ∈ S) (hb : b ∈ S) (hab : a ≠ b) :
    a.value &&& b.value = 0 := by
  have key : ∀ S ∈ multiFieldMaskSets, ∀ a ∈ S, ∀ b ∈ S, a ≠ b → a.value &&& b.value = 0 := by
    decide
  exact key S hS a ha b hb hab

/-- Witness of C3: `reset_` and `reset_accumulation_` of `Config_Masks_`. -/
theorem masks_pairwise_disjoint_witness :
    Config_Masks_.reset_ &&& Config_Masks_.reset_accumulation_ = 0 :=
  masks_pairwise_disjoint Config_Masks_.enumerators (by decide)
    ⟨"reset_", Config_Masks_.reset_⟩ ⟨"reset_accumulation_", Config_Masks_.reset_accumulation_⟩
    (by decide) (by decide) (by decide)

/-- C4: each `ADC_Config_Masks_` value is one contiguous run of set bits, of
length 4 for `mode_` and 3 for the four other fields, and `mode_` is `0xF000`,
the top four bits (15..12) of the 16-bit word. -/
theorem adc_config_layout :
    ADC_Config_Masks_.enumerators.length = 5 ∧
    IsContiguousRun ADC_Config_Masks_.mode_ 12 4 ∧
    IsContiguousRun ADC_Config_Masks_.bus_voltage_conversion_time_ 9 3 ∧
    IsContiguousRun ADC_Config_Masks_.shunt_voltage_conversion_time_ 6 3 ∧
    IsContiguousRun ADC_Config_Masks_.temperature_conversion_time_ 3 3 ∧
    IsContiguousRun ADC_Config_Masks_.adc_averaging_count_ 0 3 ∧
    ADC_Config_Masks_.mode_ = 0xF000 ∧
    setBits ADC_Config_Masks_.mode_ = [12, 13, 14, 15] ∧
    12 + 4 = ADC_Config_Masks_.underlyingBits := by
  decide

/-- C5: for every 16-bit word `w` and 4-bit code `m`, `packMode w m` has the
low 12 bits of `w`, has `m` in its top 4 bits and is a 16-bit word; for
`w = 0xABCD` the low 12 bits of the result are `0xBCD` and the result differs
from `0xABCD` only inside `mode_`. -/
theorem packMode_read_modify_write (w m : Nat) (hw : w < 2 ^ 16) (hm : m < 2 ^ 4) :
    packMode w m &&& 0x0FFF = w &&& 0x0FFF ∧
    packMode w m >>> 12 = m ∧
    decodeField ADC_Config_Masks_.mode_ (packMode w m) = m ∧
    packMode w m < 2 ^ 16 ∧
    packMode w (decodeField ADC_Config_Masks_.mode_ w) = w ∧
    packMode 0xABCD m &&& 0x0FFF = 0xBCD ∧
    (packMode 0xABCD m ^^^ 0xABCD) &&& complement 16 ADC_Config_Masks_.mode_ = 0 := by
  have hm' : m < 16 := hm
  have h1 : complement 16 ADC_Config_Masks_.mode_ = 2 ^ 12 - 1 := by decide
  have h2 : (m <<< 12) &&& ADC_Config_Masks_.mode_ = 2 ^ 12 * m := by
    interval_cases m <;> decide
  have hp : ∀ x : Nat, packMode x m = 2 ^ 12 * m + x % 2 ^ 12 := by
    intro x
    unfold packMode
    rw [h1, h2, Nat.and_pow_two_sub_one_eq_mod, Nat.lor_comm,
      ← Nat.mul_add_lt_is_or (Nat.mod_lt _ (by decide))]
  have hlow : ∀ x : Nat, x &&& 0x0FFF = x % 2 ^ 12 := fun x =>
    Nat.and_pow_two_sub_one_eq_mod x 12
  refine ⟨?_, ?_, ?_, ?_, ?_, ?_, ?_⟩
  · rw [hlow, hlow, hp w]
    omega
  · rw [Nat.shiftRight_eq_div_pow, hp w]
    omega
  · rw [decodeField_eq ADC_Config_Masks_.mode_ 12 4 _ (by decide) (by decide), hp w]
    omega
  · rw [hp w]
    omega
  · rw [decodeField_eq ADC_Config_Masks_.mode_ 12 4 _ (by decide) (by decide)]
    unfold packMode
    have h3 : ((w / 2 ^ 12 % 2 ^ 4) <<< 12) &&& ADC_Config_Masks_.mode_
        = 2 ^ 12 * (w / 2 ^ 12 % 2 ^ 4) := by
      have hq : w / 2 ^ 12 % 2 ^ 4 < 16 := Nat.mod_lt _ (by decide)
      generalize w / 2 ^ 12 % 2 ^ 4 = q at hq
      interval_cases q <;> decide
    rw [h1, h3, Nat.and_pow_two_sub_one_eq_mod, Nat.lor_comm,
      ← Nat.mul_add_lt_is_or (Nat.mod_lt _ (by decide))]
    omega
  · interval_cases m <;> decide
  · interval_cases m <;> decide

/-- Witness of C5 at `w = 0xABCD`, `m = 0x3`: the packed word is `0x3BCD`. -/
theorem packMode_read_modify_write_witness :
    packMode 0xABCD 0x3 &&& 0x0FFF = 0xABCD &&& 0x0FFF ∧ packMode 0xABCD 0x3 >>> 12 = 0x3 :=
  ⟨(packMode_read_modify_write 0xABCD 0x3 (by decide) (by decide)).1,
   (packMode_read_modify_write 0xABCD 0x3 (by decide) (by decide)).2.1⟩

/-! ## Register map -/

/-- C6: the enumerators of `Registers_` carry the addresses of the register
table (`0x00..0x0B`, the threshold registers `0x0C..0x11`, `0x3E`, `0x3F`),
every address fits in 8 bits and no two enumerators share an address. -/
theorem register_addresses :
    Registers_.enumerators =
      [ ⟨"config_", 0x00⟩, ⟨"adc_config_", 0x01⟩, ⟨"shunt_calibration_", 0x02⟩,
        ⟨"shunt_temperature_coefficient_", 0x03⟩, ⟨"shunt_voltage_measurement_", 0x04⟩,
        ⟨"bus_voltage_measurement_", 0x05⟩, ⟨"die_temperature_", 0x06⟩,
        ⟨"current_", 0x07⟩, ⟨"power_", 0x08⟩, ⟨"energy_", 0x09⟩, ⟨"charge_", 0x0A⟩,
        ⟨"diagnostic_flag_", 0x0B⟩, ⟨"shunt_overvoltage_threshold_", 0x0C⟩,
        ⟨"shunt_undervoltage_threshold_", 0x0D⟩, ⟨"bus_overvoltage_threshold_", 0x0E⟩,
        ⟨"bus_undervoltage_threshold_", 0x0F⟩, ⟨"temperature_overlimit_threshold_", 0x10⟩,
        ⟨"power_overlimit_threshold_", 0x11⟩, ⟨"manufacturer_id_", 0x3E⟩,
        ⟨"device_id_", 0x3F⟩ ] ∧
    thresholdRegisters.map (fun e => e.value) = [0x0C, 0x0D, 0x0E, 0x0F, 0x10, 0x11] ∧
    (∀ e ∈ Registers_.enumerators, e.value < 2 ^ Registers_.underlyingBits) ∧
    (Registers_.enumerators.map (fun e => e.value)).Nodup := by
  decide

/-- C7: every single-field mask enumeration has exactly one enumerator, whose
mask is one contiguous run of set bits of the width of the register table;
masking a 16-bit value with a threshold mask returns the value. -/
theorem single_field_masks (v : Nat) (hv : v < 2 ^ 16) :
    (∀ S ∈ singleFieldMaskSets, S.length = 1) ∧
    IsContiguousRun Shunt_Calibration_Masks_.shunt_calibration_ 0 15 ∧
    IsContiguousRun Shunt_Temperature_Coefficient_Masks_.shunt_temperature_coefficient_ 0 14 ∧
    IsContiguousRun Shunt_Voltage_Measurement_Masks_.shunt_voltage_measurement_ 4 20 ∧
    IsContiguousRun Bus_Voltage_Measurement_Masks_.bus_voltage_measurement_ 4 20 ∧
    IsContiguousRun Current_Result_Masks_.current_result_ 4 20 ∧
    IsContiguousRun Temperature_Measurement_Masks_.internal_die_temperature_measurement_ 0 16 ∧
    IsContiguousRun Power_Result_Masks_.power_result_ 0 24 ∧
    IsContiguousRun Energy_Result_Masks_.energy_result_ 0 40 ∧
    IsContiguousRun Charge_Result_Masks_.charge_result_ 0 40 ∧
    (∀ t ∈ thresholdMasks, IsContiguousRun t.value 0 16) ∧
    IsContiguousRun Manufacturer_ID_Masks_.manufacturer_id_ 0 16 ∧
    IsContiguousRun Device_ID_Masks_.device_id_ 0 16 ∧
    (∀ t ∈ thresholdMasks, v &&& t.value = v) := by
  refine ⟨by decide, by decide, by decide, by decide, by decide, by decide, by decide,
    by decide, by decide, by decide, by decide, by decide, by decide, ?_⟩
  have hall : ∀ t ∈ thresholdMasks, t.value = 2 ^ 16 - 1 := by decide
  intro t ht
  rw [hall t ht, Nat.and_pow_two_sub_one_eq_mod, Nat.mod_eq_of_lt hv]

/-- Witness of C7 at the threshold value `0x8001` and the mask of
`Bus_Undervoltage_Threshold_Masks_`. -/
theorem single_field_masks_witness :
    0x8001 &&& Bus_Undervoltage_Threshold_Masks_.bus_undervoltage_threshold_ = 0x8001 :=
  (single_field_masks 0x8001 (by decide)).2.2.2.2.2.2.2.2.2.2.2.2.2
    ⟨"bus_undervoltage_threshold_", Bus_Undervoltage_Threshold_Masks_.bus_undervoltage_threshold_⟩
    (by decide)

/-- C8, as stated, fails: `Registers_` does not hold eight threshold registers
with distinct addresses and a 16-bit mask each. -/
theorem eight_threshold_registers_fails :
    ¬ (thresholdRegisters.length = 8 ∧
       (thresholdRegisters.map (fun e => e.value)).Nodup ∧
       thresholdMasks.length = 8 ∧
       ∀ t ∈ thresholdMasks, IsContiguousRun t.value 0 16) := by
  decide

/-- C8, amended: `Registers_` holds six threshold registers, at the distinct
addresses `0x0C..0x11`, and the header declares six threshold masks, each the
full 16-bit word. -/
theorem six_threshold_registers :
    thresholdRegisters.map (fun e => e.name) =
      [ "shunt_overvoltage_threshold_", "shunt_undervoltage_threshold_",
        "bus_overvoltage_threshold_", "bus_undervoltage_threshold_",
        "temperature_overlimit_threshold_", "power_overlimit_threshold_" ] ∧
    thresholdRegisters.length = 6 ∧
    thresholdRegisters.map (fun e => e.value) = [0x0C, 0x0D, 0x0E, 0x0F, 0x10, 0x11] ∧
    (thresholdRegisters.map (fun e => e.value)).Nodup ∧
    thresholdMasks.length = 6 ∧
    (∀ t ∈ thresholdMasks, IsContiguousRun t.value 0 16 ∧ t.value = 0xFFFF) := by
  decide

/-! ## Diagnostic flags and alert configuration -/

/-- C9: the raw word `0x0002` asserts `conversion_complete_` and no other flag;
every `Diagnostic_Flags_Masks_` value has exactly one set bit, and the word
equal to the mask of a flag `f` asserts `f` and no other flag. -/
theorem diagnostic_flags_decode (f : Enumerator)
    (hf : f ∈ Diagnostic_Flags_Masks_.enumerators) :
    decodeFlags 0x0002 = ["conversion_complete_"] ∧
    (∀ g ∈ Diagnostic_Flags_Masks_.enumerators,
      flagAsserted 0x0002 g = true ↔ g = ⟨"conversion_complete_", 0b10⟩) ∧
    setBitCount f.value = 1 ∧
    decodeFlags f.value = [f.name] ∧
    (∀ g ∈ Diagnostic_Flags_Masks_.enumerators, flagAsserted f.value g = true ↔ g = f) := by
  have key : ∀ f ∈ Diagnostic_Flags_Masks_.enumerators,
      setBitCount f.value = 1 ∧ decodeFlags f.value = [f.name] ∧
      (∀ g ∈ Diagnostic_Flags_Masks_.enumerators, flagAsserted f.value g = true ↔ g = f) := by
    decide
  exact ⟨by decide, by decide, key f hf⟩

/-- Witness of C9 at the flag `math_overflow_`. -/
theorem diagnostic_flags_decode_witness :
    decodeFlags Diagnostic_Flags_Masks_.math_overflow_ = ["math_overflow_"] :=
  (diagnostic_flags_decode ⟨"math_overflow_", Diagnostic_Flags_Masks_.math_overflow_⟩
    (by decide)).2.2.2.1

/-- C10: for every choice of the four alert options, the encoded word has a
zero bit at the position of every status mask, and is contained in `0xF000`;
the status masks are the `Diagnostic_Flags_Masks_` values other than the four
alert options. -/
theorem alert_config_leaves_status_bits_zero
    (latchEnable alertPolarity assertOnAverage convReadyOnAlert : Bool) :
    statusMasks = (Diagnostic_Flags_Masks_.enumerators.map (fun e => e.value)).filter
      (fun v => v ∉ [Diagnostic_Flags_Masks_.alert_latch,
        Diagnostic_Flags_Masks_.alert_pin_polarity_,
        Diagnostic_Flags_Masks_.alert_asserted_on_completed_average_,
        Diagnostic_Flags_Masks_.conversion_ready_on_alert_pin_]) ∧
    (∀ s ∈ statusMasks,
      encodeAlertConfig latchEnable alertPolarity assertOnAverage convReadyOnAlert &&& s = 0) ∧
    encodeAlertConfig latchEnable alertPolarity assertOnAverage convReadyOnAlert &&& 0xF000
      = encodeAlertConfig latchEnable alertPolarity assertOnAverage convReadyOnAlert ∧
    encodeAlertConfig latchEnable alertPolarity assertOnAverage convReadyOnAlert
      &&& complement 16 0xF000 = 0 := by
  cases latchEnable <;> cases alertPolarity <;> cases assertOnAverage <;>
    cases convReadyOnAlert <;> decide

/-! ## Signed fields -/

/-- The top bit of a `W`-bit value is set exactly when the value is at least
`2 ^ (W - 1)`. -/
theorem top_bit_iff (f W : Nat) (hW : 0 < W) (hf : f < 2 ^ W) :
    f.testBit (W - 1) = decide (2 ^ (W - 1) ≤ f) := by
  obtain ⟨k, rfl⟩ : ∃ k, W = k + 1 := ⟨W - 1, by omega⟩
  simp only [Nat.add_sub_cancel]
  rw [Nat.testBit_to_div_mod]
  have h2 : f / 2 ^ k < 2 := by
    rw [Nat.div_lt_iff_lt_mul (by positivity)]
    rw [pow_succ] at hf
    omega
  by_cases h : 2 ^ k ≤ f
  · have : 1 ≤ f / 2 ^ k := (Nat.one_le_div_iff (by positivity)).2 h
    simp [h]; omega
  · have : f / 2 ^ k = 0 := Nat.div_eq_of_lt (by omega)
    simp [h, this]

/-- A signed field of width `W` unpacks into `[-2 ^ (W - 1), 2 ^ (W - 1))`. -/
theorem unpackSigned_range (mask k W raw : Nat) (hW : 0 < W) (hk : lowestSetBit mask = k)
    (hm : mask = (2 ^ W - 1) <<< k) :
    -(2 : Int) ^ (W - 1) ≤ unpackSigned mask W raw ∧ unpackSigned mask W raw < 2 ^ (W - 1) := by
  unfold unpackSigned
  rw [decodeField_eq mask k W raw hk hm]
  have hf : raw / 2 ^ k % 2 ^ W < 2 ^ W := Nat.mod_lt _ (by positivity)
  generalize raw / 2 ^ k % 2 ^ W = f at hf
  rw [top_bit_iff f W hW hf]
  obtain ⟨j, rfl⟩ : ∃ j, W = j + 1 := ⟨W - 1, by omega⟩
  simp only [Nat.add_sub_cancel]
  have hp : (2 : Int) ^ (j + 1) = 2 * 2 ^ j := by ring
  have hfi : (f : Int) < 2 ^ (j + 1) := by exact_mod_cast hf
  by_cases h : 2 ^ j ≤ f
  · have hi : (2 : Int) ^ j ≤ f := by exact_mod_cast h
    simp only [h, decide_True, if_true]
    constructor <;> linarith
  · have hi : (f : Int) < (2 : Int) ^ j := by exact_mod_cast (Nat.lt_of_not_le h)
    simp only [h, decide_False]
    have : (0 : Int) ≤ f := Int.natCast_nonneg f
    have : (0 : Int) < 2 ^ j := by positivity
    constructor
    · simp; linarith
    · simpa using hi

/-- C11: for every signed measurement field (shunt voltage and current of
width 20, die temperature of width 16, charge of width 40) the mask is a
contiguous run of that width; unpacking the all-ones field yields `-1`,
unpacking the field value `2 ^ (W - 1)` yields `-2 ^ (W - 1)`, and every raw
word unpacks into `[-2 ^ (W - 1), 2 ^ (W - 1))`, so `-2 ^ (W - 1)` is the
minimum. -/
theorem unpackSigned_extremes (mask width raw : Nat) (hf : (mask, width) ∈ signedFields) :
    IsContiguousRun mask (lowestSetBit mask) width ∧
    unpackSigned mask width mask = -1 ∧
    unpackSigned mask width (place mask (2 ^ (width - 1))) = -2 ^ (width - 1) ∧
    (decodeField mask raw = 2 ^ width - 1 → unpackSigned mask width raw = -1) ∧
    (decodeField mask raw = 2 ^ (width - 1) →
      unpackSigned mask width raw = -2 ^ (width - 1)) ∧
    -2 ^ (width - 1) ≤ unpackSigned mask width raw ∧
    unpackSigned mask width raw < 2 ^ (width - 1) := by
  simp only [signedFields, List.mem_cons, Prod.mk.injEq, List.mem_singleton,
    List.not_mem_nil, or_false] at hf
  rcases hf with ⟨rfl, rfl⟩ | ⟨rfl, rfl⟩ | ⟨rfl, rfl⟩ | ⟨rfl, rfl⟩
  · refine ⟨by decide, by decide, by decide, ?_, ?_,
      unpackSigned_range _ 4 20 raw (by decide) (by decide) (by decide)⟩
    · intro h
      unfold unpackSigned
      rw [h]
      decide
    · intro h
      unfold unpackSigned
      rw [h]
      decide
  · refine ⟨by decide, by decide, by decide, ?_, ?_,
      unpackSigned_range _ 4 20 raw (by decide) (by decide) (by decide)⟩
    · intro h
      unfold unpackSigned
      rw [h]
      decide
    · intro h
      unfold unpackSigned
      rw [h]
      decide
  · refine ⟨by decide, by decide, by decide, ?_, ?_,
      unpackSigned_range _ 0 16 raw (by decide) (by decide) (by decide)⟩
    · intro h
      unfold unpackSigned
      rw [h]
      decide
    · intro h
      unfold unpackSigned
      rw [h]
      decide
  · refine ⟨by decide, by decide, by decide, ?_, ?_,
      unpackSigned_range _ 0 40 raw (by decide) (by decide) (by decide)⟩
    · intro h
      unfold unpackSigned
      rw [h]
      decide
    · intro h
      unfold unpackSigned
      rw [h]
      decide

/-- Witness of C11 at the charge field: the all-ones 40-bit word unpacks to
`-1` and the word `2 ^ 39` to `-2 ^ 39`. -/
theorem unpackSigned_extremes_witness :
    unpackSigned Charge_Result_Masks_.charge_result_ 40 0xFFFFFFFFFF = -1 ∧
    unpackSigned Charge_Result_Masks_.charge_result_ 40 0x8000000000 = -2 ^ 39 :=
  ⟨(unpackSigned_extremes Charge_Result_Masks_.charge_result_ 40 0 (by decide)).2.1,
   (unpackSigned_extremes Charge_Result_Masks_.charge_result_ 40 0 (by decide)).2.2.1⟩

/-! ## Code spaces of the value enumerations -/

/-- C12: `Conversion_Times` and `Averaging_Counts` each list eight enumerators
whose values are `0..7` in order, and every 3-bit code is the value of exactly
one enumerator of each. -/
theorem conversion_and_averaging_codes (c : Nat) (hc : c < 2 ^ 3) :
    Conversion_Times.enumerators.length = 8 ∧
    Averaging_Counts.enumerators.length = 8 ∧
    Conversion_Times.enumerators.map (fun e => e.value) = [0, 1, 2, 3, 4, 5, 6, 7] ∧
    Averaging_Counts.enumerators.map (fun e => e.value) = [0, 1, 2, 3, 4, 5, 6, 7] ∧
    (enumeratorsWithValue Conversion_Times.enumerators c).length = 1 ∧
    (enumeratorsWithValue Averaging_Counts.enumerators c).length = 1 := by
  have hc' : c < 8 := hc
  refine ⟨by decide, by decide, by decide, by decide, ?_, ?_⟩ <;>
    interval_cases c <;> decide

/-- Witness of C12 at the code `0x5`. -/
theorem conversion_and_averaging_codes_witness :
    (enumeratorsWithValue Conversion_Times.enumerators 0x5).length = 1 ∧
    (enumeratorsWithValue Averaging_Counts.enumerators 0x5).length = 1 :=
  ⟨(conversion_and_averaging_codes 0x5 (by decide)).2.2.2.2.1,
   (conversion_and_averaging_codes 0x5 (by decide)).2.2.2.2.2⟩

/-- C13: the header writes the identifier `trig_temp_bus_single` twice in
`Modes`, with the values `0x5` and `0x6`, so the identifiers of `Modes` are not
pairwise distinct; every other identifier is written once, and the values of
`Modes` are pairwise distinct. -/
theorem modes_duplicate_identifier :
    enumeratorsNamed Modes.enumerators "trig_temp_bus_single"
      = [⟨"trig_temp_bus_single", 0x5⟩, ⟨"trig_temp_bus_single", 0x6⟩] ∧
    ¬ (Modes.enumerators.map (fun e => e.name)).Nodup ∧
    (∀ e ∈ Modes.enumerators, e.name ≠ "trig_temp_bus_single" →
      (enumeratorsNamed Modes.enumerators e.name).length = 1) ∧
    (Modes.enumerators.map (fun e => e.value)).Nodup := by
  decide

/-! ## Coverage of the register words -/

/-- C14: the five `ADC_Config_Masks_` values are pairwise disjoint and their OR
is `0xFFFF`, so each of the 16 bits lies in exactly one field; the OR of the
`Config_Masks_` values is `0xFFF0` (bits 3..0 unused) and the OR of the
`Diagnostic_Flags_Masks_` values is `0xFEFF` (bit 8 unused). -/
theorem adc_config_masks_partition_word :
    maskUnion ADC_Config_Masks_.enumerators = 0xFFFF ∧
    (∀ a ∈ ADC_Config_Masks_.enumerators, ∀ b ∈ ADC_Config_Masks_.enumerators,
      a ≠ b → a.value &&& b.value = 0) ∧
    (∀ i < 16, (fieldsAtBit ADC_Config_Masks_.enumerators i).length = 1) ∧
    maskUnion Config_Masks_.enumerators = 0xFFF0 ∧
    setBits (complement 16 (maskUnion Config_Masks_.enumerators)) = [0, 1, 2, 3] ∧
    maskUnion Diagnostic_Flags_Masks_.enumerators = 0xFEFF ∧
    setBits (complement 16 (maskUnion Diagnostic_Flags_Masks_.enumerators)) = [8] := by
  decide

end INA228
